import Mathlib

/-
Verification of the transaction-retry runner and fund-transfer logic of
`example.py` (asyncpg / CockroachDB sample application).

The embedding models `run_transaction(conn, op, max_retries)` as a pure
function over an abstract behaviour of the unit of work: the behaviour
assigns to each attempt number the result the unit of work produces on
that attempt (success, a retryable serialization error, or a fatal
error).  The runner produces an `Outcome` together with a trace of
observable events (scope acquisition, invocations of the unit of work,
rollbacks, sleeps, and the commit/abort of the enclosing scope), read
off line by line from the Python source:

    async with conn.transaction():             -- beginScope ... closer
        for retry in range(1, max_retries + 1):
            try:
                await op(conn)                 -- invoke retry
                return                         -- success, scope commits
            except SerializationError as e:
                conn.rollback()                -- rollback
                sleep_seconds = (2**retry) * 0.1 * (random.random() + 0.5)
                time.sleep(sleep_seconds)      -- sleep retry
            except Exception as e:
                raise e                        -- fatal, scope aborts
        raise ValueError(
            f"transaction did not succeed after {max_retries} retries")

The backoff arithmetic (line 88) is modelled exactly over ℚ, with the
jitter `random.random()` an explicit parameter ranging over [0, 1).

`transfer_funds(conn, frm, to, amount)` is modelled over an account
table represented as an association list from account id to balance;
the model records the final table and the number of UPDATE statements
issued, so that "no state change" claims are directly statable.
-/

namespace AsyncpgExample

/-- Errors the unit of work can raise: `serialization` models
`asyncpg.exceptions.SerializationError` (the retryable kind caught by
the first `except` branch); `fatal s` models any other exception, with
`s` its payload (caught by the second `except` branch and re-raised). -/
inductive Err where
  | serialization
  | fatal (msg : String)
deriving DecidableEq

/-- What the unit of work `op(conn)` does on a given attempt: complete
normally, or raise an error. -/
inductive OpResult where
  | ok
  | raise (e : Err)
deriving DecidableEq

/-- Observable events of one `run_transaction` invocation. -/
inductive Event where
  | beginScope
  | invoke (attempt : Nat)
  | rollback
  | sleep (retry : Nat)
  | commitScope
  | abortScope
deriving DecidableEq

/-- The observable result of a `run_transaction` call: normal return,
a propagated exception from the unit of work, or the final
`ValueError` raised after exhausting the retry loop. -/
inductive Outcome where
  | success
  | error (e : Err)
  | retriesExhausted (msg : String)
deriving DecidableEq

/-- The `ValueError` message of line 97-98:
`f"transaction did not succeed after {max_retries} retries"`. -/
def exhaustedMessage (m : Int) : String :=
  "transaction did not succeed after " ++ toString m ++ " retries"

/-- Python `range(1, max_retries + 1)`: the list of attempt numbers.
Empty when `max_retries ≤ 0`, else `[1, ..., max_retries]`. -/
def attemptRange (m : Int) : List Nat :=
  List.range' 1 m.toNat

/-- Line 88: `sleep_seconds = (2**retry) * 0.1 * (random.random() + 0.5)`,
with the jitter `j = random.random() ∈ [0, 1)` made an explicit
parameter and the arithmetic carried out exactly over ℚ. -/
def sleep_seconds (retry : Nat) (j : ℚ) : ℚ :=
  2 ^ retry * (1 / 10) * (j + 1 / 2)

/-- The expected backoff delay for a given retry number.  The delay is
affine in the jitter `j`, and `j = random.random()` is uniform on
[0, 1) with mean 1/2, so the expected delay is the delay evaluated at
the mean jitter: `sleep_seconds retry (1/2) = 2^retry * (1/10)`. -/
def expectedSleep (retry : Nat) : ℚ :=
  sleep_seconds retry (1 / 2)

/-- The retry loop of lines 73-98, processing the given list of attempt
numbers.  On `ok` the function returns (`return`, line 79); on a
serialization error it rolls back, sleeps and continues (lines 81-90);
on any other exception it re-raises it (lines 92-95); when the list is
exhausted it raises the `ValueError` of lines 97-98. -/
def runLoop (op : Nat → OpResult) (m : Int) : List Nat → Outcome × List Event
  | [] => (.retriesExhausted (exhaustedMessage m), [])
  | r :: rest =>
    match op r with
    | .ok => (.success, [.invoke r])
    | .raise .serialization =>
      let res := runLoop op m rest
      (res.1, .invoke r :: .rollback :: .sleep r :: res.2)
    | .raise (.fatal s) => (.error (.fatal s), [.invoke r])

/-- The scope-closing event of `async with conn.transaction():` —
commit on normal exit, rollback/abort when leaving with an exception. -/
def closerOf (o : Outcome) : Event :=
  match o with
  | .success => .commitScope
  | _ => .abortScope

/-- `run_transaction(conn, op, max_retries)` (lines 63-98): open the
transaction scope, run the retry loop over `range(1, max_retries + 1)`,
and close the scope according to how the loop ended. -/
def run_transaction (op : Nat → OpResult) (m : Int) : Outcome × List Event :=
  let res := runLoop op m (attemptRange m)
  (res.1, .beginScope :: res.2 ++ [closerOf res.1])

/-! Event classifiers and counters over traces. -/

def isInvoke : Event → Bool
  | .invoke _ => true
  | _ => false

def isSleep : Event → Bool
  | .sleep _ => true
  | _ => false

def isRollback : Event → Bool
  | .rollback => true
  | _ => false

def isBegin : Event → Bool
  | .beginScope => true
  | _ => false

def isClose : Event → Bool
  | .commitScope => true
  | .abortScope => true
  | _ => false

/-- Number of events in a trace satisfying a classifier. -/
def countEv (p : Event → Bool) : List Event → Nat
  | [] => 0
  | e :: rest => (if p e then 1 else 0) + countEv p rest

/-- The attempt numbers at which the unit of work was invoked, in trace
order. -/
def invokesOf : List Event → List Nat
  | [] => []
  | .invoke r :: rest => r :: invokesOf rest
  | _ :: rest => invokesOf rest

/-- The event block emitted for each attempt that fails with a
serialization error: invoke, then the explicit rollback (line 86), then
the backoff sleep (line 90). -/
def conflictBlocks : List Nat → List Event
  | [] => []
  | r :: rest => .invoke r :: .rollback :: .sleep r :: conflictBlocks rest

/-- The maximal prefix of attempts on which the unit of work raises a
serialization error. -/
def conflictAttempts (op : Nat → OpResult) (l : List Nat) : List Nat :=
  l.takeWhile (fun r => decide (op r = OpResult.raise Err.serialization))

/-- The attempts from the first one on which the unit of work does not
raise a serialization error. -/
def afterConflicts (op : Nat → OpResult) (l : List Nat) : List Nat :=
  l.dropWhile (fun r => decide (op r = OpResult.raise Err.serialization))

/-- The single invoke event of the attempt at which the loop stops
(none when the loop runs off the end of the range). -/
def stopInvoke : List Nat → List Event
  | [] => []
  | r :: _ => [.invoke r]

/-- A unit of work that raises a serialization error on every attempt
(the always-conflicting behaviour of the end-to-end spec scenarios). -/
def alwaysConflict : Nat → OpResult :=
  fun _ => .raise .serialization

/-! The fund-transfer operation (lines 42-60). -/

/-- `SELECT balance FROM accounts WHERE id = $1` via `fetchrow`: the
balance of the first row whose id matches, if any. -/
def fetchBalance (db : List (Nat × Int)) (who : Nat) : Option Int :=
  match db with
  | [] => none
  | (i, b) :: rest => if i = who then some b else fetchBalance rest who

/-- `UPDATE accounts SET balance = balance + $1 WHERE id = $2`: add
`delta` to the balance of every row whose id matches. -/
def updateBalance (db : List (Nat × Int)) (who : Nat) (delta : Int) :
    List (Nat × Int) :=
  db.map (fun p => if p.1 = who then (p.1, p.2 + delta) else p)

/-- How a `transfer_funds` call ends: normal completion, or the
`RuntimeError` of lines 46-48 for insufficient funds. -/
inductive TransferResult where
  | ok
  | insufficientFunds
deriving DecidableEq

/-- `transfer_funds(conn, frm, to, amount)` (lines 42-60): fetch the
source balance; if it is below `amount`, raise the insufficient-funds
error; otherwise debit the source and credit the destination.  The
result records the outcome, the final account table, and the number of
UPDATE statements issued.  `none` models the crash Python would incur
subscripting the `None` returned by `fetchrow` for a missing row. -/
def transfer_funds (db : List (Nat × Int)) (frm tto : Nat) (amount : Int) :
    Option (TransferResult × List (Nat × Int) × Nat) :=
  match fetchBalance db frm with
  | none => none
  | some bal =>
    if bal < amount then some (.insufficientFunds, db, 0)
    else some (.ok, updateBalance (updateBalance db frm (-amount)) tto amount, 2)

/-! ### Helper lemmas about counters and traces -/

lemma countEv_append (p : Event → Bool) (l₁ l₂ : List Event) :
    countEv p (l₁ ++ l₂) = countEv p l₁ + countEv p l₂ := by
  induction l₁ with
  | nil => simp [countEv]
  | cons e rest ih => simp [countEv, ih]; omega

lemma countEv_invoke_conflictBlocks (l : List Nat) :
    countEv isInvoke (conflictBlocks l) = l.length := by
  induction l with
  | nil => simp [conflictBlocks, countEv]
  | cons r rest ih =>
    simp [conflictBlocks, countEv, isInvoke, isSleep, isRollback, ih]; omega

lemma countEv_sleep_conflictBlocks (l : List Nat) :
    countEv isSleep (conflictBlocks l) = l.length := by
  induction l with
  | nil => simp [conflictBlocks, countEv]
  | cons r rest ih =>
    simp [conflictBlocks, countEv, isInvoke, isSleep, isRollback, ih]; omega

lemma countEv_rollback_conflictBlocks (l : List Nat) :
    countEv isRollback (conflictBlocks l) = l.length := by
  induction l with
  | nil => simp [conflictBlocks, countEv]
  | cons r rest ih =>
    simp [conflictBlocks, countEv, isInvoke, isSleep, isRollback, ih]; omega

lemma countEv_begin_conflictBlocks (l : List Nat) :
    countEv isBegin (conflictBlocks l) = 0 := by
  induction l with
  | nil => simp [conflictBlocks, countEv]
  | cons r rest ih => simp [conflictBlocks, countEv, isBegin, ih]

lemma countEv_close_conflictBlocks (l : List Nat) :
    countEv isClose (conflictBlocks l) = 0 := by
  induction l with
  | nil => simp [conflictBlocks, countEv]
  | cons r rest ih => simp [conflictBlocks, countEv, isClose, ih]

lemma invokesOf_append (l₁ l₂ : List Event) :
    invokesOf (l₁ ++ l₂) = invokesOf l₁ ++ invokesOf l₂ := by
  induction l₁ with
  | nil => simp [invokesOf]
  | cons e rest ih => cases e <;> simp [invokesOf, ih]

lemma invokesOf_conflictBlocks (l : List Nat) :
    invokesOf (conflictBlocks l) = l := by
  induction l with
  | nil => simp [conflictBlocks, invokesOf]
  | cons r rest ih => simp [conflictBlocks, invokesOf, ih]

/-! ### Helper lemmas about the retry loop -/

/-- If every attempt in a prefix raises a serialization error, the loop
processes the whole prefix as rollback-and-sleep blocks and continues
with the remaining attempts. -/
lemma runLoop_conflictPrefix (op : Nat → OpResult) (m : Int) (l₁ l₂ : List Nat)
    (h : ∀ r ∈ l₁, op r = .raise .serialization) :
    runLoop op m (l₁ ++ l₂) =
      ((runLoop op m l₂).1, conflictBlocks l₁ ++ (runLoop op m l₂).2) := by
  induction l₁ with
  | nil => simp [conflictBlocks]
  | cons a rest ih =>
    have ha : op a = .raise .serialization := h a (by simp)
    have hrest : ∀ r ∈ rest, op r = .raise .serialization := fun r hr => h r (by simp [hr])
    simp [runLoop, ha, conflictBlocks, ih hrest]

/-- Trace characterization of the retry loop: a rollback-and-sleep
block for every attempt in the maximal serialization-failure prefix,
then at most one further invocation (the attempt on which the loop
stops, by success or by a fatal error). -/
lemma runLoop_trace (op : Nat → OpResult) (m : Int) (l : List Nat) :
    (runLoop op m l).2 =
      conflictBlocks (conflictAttempts op l) ++ stopInvoke (afterConflicts op l) := by
  induction l with
  | nil => simp [runLoop, conflictAttempts, afterConflicts, conflictBlocks, stopInvoke]
  | cons r rest ih =>
    cases hop : op r with
    | ok =>
      simp [runLoop, hop, conflictAttempts, afterConflicts, List.takeWhile_cons,
        List.dropWhile_cons, conflictBlocks, stopInvoke]
    | raise e =>
      cases e with
      | serialization =>
        simp [runLoop, hop, conflictAttempts, afterConflicts, List.takeWhile_cons,
          List.dropWhile_cons, conflictBlocks, stopInvoke] at ih ⊢
        exact ih
      | fatal s =>
        simp [runLoop, hop, conflictAttempts, afterConflicts, List.takeWhile_cons,
          List.dropWhile_cons, conflictBlocks, stopInvoke]

/-- Outcome classification of the retry loop: success, a fatal error
raised by some attempt in the list, or the retries-exhausted error. -/
lemma runLoop_outcome (op : Nat → OpResult) (m : Int) (l : List Nat) :
    (runLoop op m l).1 = .success ∨
      (∃ r s, r ∈ l ∧ op r = .raise (.fatal s) ∧ (runLoop op m l).1 = .error (.fatal s)) ∨
      (runLoop op m l).1 = .retriesExhausted (exhaustedMessage m) := by
  induction l with
  | nil => right; right; simp [runLoop]
  | cons r rest ih =>
    cases hop : op r with
    | ok => left; simp [runLoop, hop]
    | raise e =>
      cases e with
      | serialization =>
        have hl : (runLoop op m (r :: rest)).1 = (runLoop op m rest).1 := by
          simp [runLoop, hop]
        rcases ih with h | ⟨a, s, hm, ha, hout⟩ | h
        · left; rw [hl]; exact h
        · right; left; exact ⟨a, s, by simp [hm], ha, by rw [hl]; exact hout⟩
        · right; right; rw [hl]; exact h
      | fatal s =>
        right; left
        exact ⟨r, s, by simp, hop, by simp [runLoop, hop]⟩

/-- An Int `m ≥ 1` splits `range(1, m + 1)` around an attempt `k`. -/
lemma attemptRange_split (m : Int) (k : Nat) (hk : 1 ≤ k) (hkm : (k : Int) ≤ m) :
    attemptRange m = List.range' 1 (k - 1) ++ k :: List.range' (k + 1) (m.toNat - k) := by
  have hkm' : k ≤ m.toNat := by omega
  have h1 : List.range' 1 (k - 1) ++ List.range' (1 + (k - 1)) (m.toNat - (k - 1)) =
      List.range' 1 (m.toNat - (k - 1) + (k - 1)) := List.range'_append_1 1 (k - 1) _
  have h3 : 1 + (k - 1) = k := by omega
  have h4 : m.toNat - (k - 1) = (m.toNat - k) + 1 := by omega
  have h5 : List.range' k ((m.toNat - k) + 1) = k :: List.range' (k + 1) (m.toNat - k) :=
    List.range'_succ k (m.toNat - k) 1
  have h2 : m.toNat = m.toNat - (k - 1) + (k - 1) := by omega
  rw [attemptRange]
  nth_rewrite 1 [h2]
  rw [← h1, h3, h4, h5]

lemma mem_range'_conflict {k : Nat} {op : Nat → OpResult}
    (hop : ∀ r, 1 ≤ r → r < k → op r = .raise .serialization) :
    ∀ r ∈ List.range' 1 (k - 1), op r = .raise .serialization := by
  intro r hr
  rw [List.mem_range'_1] at hr
  exact hop r hr.1 (by omega)

/-- When every attempt conflicts, the whole run is the exhausted
outcome with one rollback-and-sleep block per attempt. -/
lemma run_transaction_allConflicts (op : Nat → OpResult) (m : Int)
    (hop : ∀ r, op r = .raise .serialization) :
    run_transaction op m =
      (.retriesExhausted (exhaustedMessage m),
        .beginScope :: conflictBlocks (attemptRange m) ++ [.abortScope]) := by
  have hpre := runLoop_conflictPrefix op m (attemptRange m) [] (fun r _ => hop r)
  rw [List.append_nil] at hpre
  simp [run_transaction, hpre, runLoop, closerOf]

lemma isBegin_closerOf (o : Outcome) : isBegin (closerOf o) = false := by
  cases o <;> rfl

lemma isClose_closerOf (o : Outcome) : isClose (closerOf o) = true := by
  cases o <;> rfl

lemma countEv_begin_stopInvoke (l : List Nat) : countEv isBegin (stopInvoke l) = 0 := by
  cases l <;> rfl

lemma countEv_close_stopInvoke (l : List Nat) : countEv isClose (stopInvoke l) = 0 := by
  cases l <;> rfl

lemma invokesOf_closerOf (o : Outcome) : invokesOf [closerOf o] = [] := by
  cases o <;> rfl

lemma length_invokesOf (l : List Event) : (invokesOf l).length = countEv isInvoke l := by
  induction l with
  | nil => rfl
  | cons e rest ih => cases e <;> (simp [invokesOf, countEv, isInvoke, ih]; try omega)

/-- A `takeWhile` of a unit-step range is again a unit-step range, of
the same start and of the prefix length. -/
lemma takeWhile_range'_eq (p : Nat → Bool) :
    ∀ (n s : Nat), (List.range' s n).takeWhile p =
      List.range' s ((List.range' s n).takeWhile p).length := by
  intro n
  induction n with
  | zero => intro s; simp
  | succ n ih =>
    intro s
    rw [List.range'_succ]
    by_cases hp : p s
    · rw [List.takeWhile_cons_of_pos hp]
      have := ih (s + 1)
      rw [this]
      simp [List.range'_succ]
    · rw [List.takeWhile_cons_of_neg (by simp [hp])]
      simp

/-- The matching `dropWhile` of a unit-step range is the remaining
range. -/
lemma dropWhile_range'_eq (p : Nat → Bool) :
    ∀ (n s : Nat), (List.range' s n).dropWhile p =
      List.range' (s + ((List.range' s n).takeWhile p).length)
        (n - ((List.range' s n).takeWhile p).length) := by
  intro n
  induction n with
  | zero => intro s; simp
  | succ n ih =>
    intro s
    rw [List.range'_succ]
    by_cases hp : p s
    · rw [List.dropWhile_cons_of_pos hp, List.takeWhile_cons_of_pos hp]
      rw [ih (s + 1)]
      simp only [List.length_cons]
      congr 1 <;> omega
    · rw [List.dropWhile_cons_of_neg (by simp [hp]), List.takeWhile_cons_of_neg (by simp [hp])]
      simp [List.range'_succ]

/-! ### Claim theorems -/

/-- C1 counterexample: with `maxRetries = 2` and an always-conflicting
unit of work, the runner performs 2 backoff sleeps, not
`maxRetries - 1 = 1`: the code sleeps after every serialization
failure, including the one on the final attempt, before raising the
retries-exhausted error.  The claim as stated is therefore false at
this input. -/
theorem run_transaction_sleep_count_cex :
    countEv isSleep (run_transaction alwaysConflict 2).2 = 2 ∧
    ¬ ((run_transaction alwaysConflict 2).1 =
          .retriesExhausted (exhaustedMessage 2) ∧
        countEv isInvoke (run_transaction alwaysConflict 2).2 = 2 ∧
        countEv isSleep (run_transaction alwaysConflict 2).2 = 2 - 1) := by
  constructor
  · decide
  · decide

/-- C1 (amended): for every `maxRetries ≥ 1`, if the unit of work
raises a retryable serialization error on every invocation, then
`run_transaction` invokes the unit of work exactly `maxRetries` times,
performs exactly `maxRetries` backoff sleeps (one after every
retryable failure, including the failure on the final attempt) and
`maxRetries` rollbacks, and terminates by raising the
retries-exhausted error (never the serialization error itself). -/
theorem run_transaction_all_conflicts_exhausts (op : Nat → OpResult) (m : Int)
    (hm : 1 ≤ m) (hop : ∀ r, op r = .raise .serialization) :
    (run_transaction op m).1 = .retriesExhausted (exhaustedMessage m) ∧
    (countEv isInvoke (run_transaction op m).2 : Int) = m ∧
    (countEv isSleep (run_transaction op m).2 : Int) = m ∧
    (countEv isRollback (run_transaction op m).2 : Int) = m := by
  have hrun := run_transaction_allConflicts op m hop
  refine ⟨by rw [hrun], ?_, ?_, ?_⟩ <;>
    rw [hrun] <;>
    simp [countEv, countEv_append, isInvoke, isSleep, isRollback,
      countEv_invoke_conflictBlocks, countEv_sleep_conflictBlocks,
      countEv_rollback_conflictBlocks, attemptRange] <;>
    omega

/-- C1 witness: the amended statement evaluated at `maxRetries = 2`
with the always-conflicting unit of work. -/
theorem run_transaction_all_conflicts_exhausts_witness :
    (run_transaction alwaysConflict 2).1 = .retriesExhausted (exhaustedMessage 2) ∧
    (countEv isInvoke (run_transaction alwaysConflict 2).2 : Int) = 2 ∧
    (countEv isSleep (run_transaction alwaysConflict 2).2 : Int) = 2 ∧
    (countEv isRollback (run_transaction alwaysConflict 2).2 : Int) = 2 :=
  run_transaction_all_conflicts_exhausts alwaysConflict 2 (by decide) (fun _ => rfl)

/-- C6: after exhausting all attempts on consecutive retryable
failures, the raised failure is the `ValueError` of lines 97-98: a
distinct outcome constructor from a propagated serialization error,
whose message is the format string naming the configured ceiling
`max_retries`. -/
theorem run_transaction_exhausted_names_ceiling (op : Nat → OpResult) (m : Int)
    (_hm : 1 ≤ m) (hop : ∀ r, op r = .raise .serialization) :
    (run_transaction op m).1 = .retriesExhausted (exhaustedMessage m) ∧
    exhaustedMessage m =
      "transaction did not succeed after " ++ toString m ++ " retries" ∧
    Outcome.retriesExhausted (exhaustedMessage m) ≠ Outcome.error .serialization := by
  refine ⟨by rw [run_transaction_allConflicts op m hop], rfl, by simp⟩

/-- C6 witness: the statement evaluated at `maxRetries = 2` with the
always-conflicting unit of work; the message is the concrete string
naming the ceiling 2. -/
theorem run_transaction_exhausted_names_ceiling_witness :
    (run_transaction alwaysConflict 2).1 = .retriesExhausted (exhaustedMessage 2) ∧
    exhaustedMessage 2 =
      "transaction did not succeed after " ++ toString (2 : Int) ++ " retries" ∧
    Outcome.retriesExhausted (exhaustedMessage 2) ≠ Outcome.error .serialization :=
  run_transaction_exhausted_names_ceiling alwaysConflict 2 (by decide) (fun _ => rfl)

/-- C9: for `max_retries ≤ 0` the loop range `range(1, max_retries + 1)`
is empty, so the unit of work is never invoked, no sleep and no
rollback happen, and the retries-exhausted `ValueError` naming that
`max_retries` value is raised. -/
theorem run_transaction_nonpositive_retries (op : Nat → OpResult) (m : Int)
    (hm : m ≤ 0) :
    (run_transaction op m).1 = .retriesExhausted (exhaustedMessage m) ∧
    countEv isInvoke (run_transaction op m).2 = 0 ∧
    countEv isSleep (run_transaction op m).2 = 0 ∧
    countEv isRollback (run_transaction op m).2 = 0 ∧
    exhaustedMessage m =
      "transaction did not succeed after " ++ toString m ++ " retries" := by
  have h0 : m.toNat = 0 := by omega
  have hr : attemptRange m = [] := by simp [attemptRange, h0]
  refine ⟨?_, ?_, ?_, ?_, rfl⟩ <;>
    simp [run_transaction, hr, runLoop, closerOf, countEv, countEv_append,
      isInvoke, isSleep, isRollback]

/-- C9 witness: at `max_retries = -1`, even a unit of work that would
succeed immediately is never invoked and the `ValueError` names -1. -/
theorem run_transaction_nonpositive_retries_witness :
    (run_transaction (fun _ => OpResult.ok) (-1)).1 =
      .retriesExhausted (exhaustedMessage (-1)) ∧
    countEv isInvoke (run_transaction (fun _ => OpResult.ok) (-1)).2 = 0 ∧
    countEv isSleep (run_transaction (fun _ => OpResult.ok) (-1)).2 = 0 ∧
    countEv isRollback (run_transaction (fun _ => OpResult.ok) (-1)).2 = 0 ∧
    exhaustedMessage (-1) =
      "transaction did not succeed after " ++ toString (-1 : Int) ++ " retries" :=
  run_transaction_nonpositive_retries (fun _ => OpResult.ok) (-1) (by decide)

/-- Shared shape of a run whose first `k - 1` attempts all raise a
serialization error: the loop reaches attempt `k` after `k - 1`
rollback-and-sleep blocks. -/
lemma run_transaction_prefixStop (op : Nat → OpResult) (m : Int) (k : Nat)
    (hk : 1 ≤ k) (hkm : (k : Int) ≤ m)
    (hop : ∀ r, 1 ≤ r → r < k → op r = .raise .serialization) :
    run_transaction op m =
      ((runLoop op m (k :: List.range' (k + 1) (m.toNat - k))).1,
        .beginScope ::
          (conflictBlocks (List.range' 1 (k - 1)) ++
            (runLoop op m (k :: List.range' (k + 1) (m.toNat - k))).2) ++
          [closerOf (runLoop op m (k :: List.range' (k + 1) (m.toNat - k))).1]) := by
  have hsplit := attemptRange_split m k hk hkm
  have hpre := runLoop_conflictPrefix op m (List.range' 1 (k - 1))
    (k :: List.range' (k + 1) (m.toNat - k)) (mem_range'_conflict hop)
  simp [run_transaction, hsplit, hpre]

/-- C3: if the unit of work raises a serialization error on attempts
`1..k-1` and completes without error on attempt `k ≤ maxRetries`, the
runner invokes it exactly `k` times, sleeps (and rolls back) exactly
`k - 1` times, and returns success with no further attempts. -/
theorem run_transaction_success_at (op : Nat → OpResult) (m : Int) (k : Nat)
    (hk : 1 ≤ k) (hkm : (k : Int) ≤ m)
    (hop : ∀ r, 1 ≤ r → r < k → op r = .raise .serialization)
    (hsucc : op k = .ok) :
    (run_transaction op m).1 = .success ∧
    countEv isInvoke (run_transaction op m).2 = k ∧
    countEv isSleep (run_transaction op m).2 = k - 1 ∧
    countEv isRollback (run_transaction op m).2 = k - 1 := by
  have h := run_transaction_prefixStop op m k hk hkm hop
  have hstop : runLoop op m (k :: List.range' (k + 1) (m.toNat - k)) =
      (.success, [.invoke k]) := by
    simp [runLoop, hsucc]
  rw [hstop] at h
  refine ⟨by rw [h], ?_, ?_, ?_⟩ <;>
    (rw [h];
      simp [countEv, countEv_append, isInvoke, isSleep, isRollback, closerOf,
        countEv_invoke_conflictBlocks, countEv_sleep_conflictBlocks,
        countEv_rollback_conflictBlocks];
      try omega)

/-- C3 witness: the end-to-end spec scenario `maxRetries = 3`, failures
on attempts 1 and 2, success on attempt 3: three invocations, two
sleeps, two rollbacks, success. -/
theorem run_transaction_success_at_witness :
    (run_transaction (fun r => if r < 3 then .raise .serialization else .ok) 3).1 =
      .success ∧
    countEv isInvoke
      (run_transaction (fun r => if r < 3 then .raise .serialization else .ok) 3).2 = 3 ∧
    countEv isSleep
      (run_transaction (fun r => if r < 3 then .raise .serialization else .ok) 3).2 = 2 ∧
    countEv isRollback
      (run_transaction (fun r => if r < 3 then .raise .serialization else .ok) 3).2 = 2 :=
  run_transaction_success_at (fun r => if r < 3 then .raise .serialization else .ok)
    3 3 (by decide) (by decide)
    (fun r _ h2 => by simp [h2]) (by simp)

/-- C2: if the unit of work raises a serialization error on attempts
`1..k-1` and a fatal (non-retryable) error on attempt `k ≤ maxRetries`,
the runner stops at attempt `k`: exactly `k` invocations, no sleep and
no rollback for the fatal failure (only the `k - 1` earlier ones), and
the original error is propagated unchanged. -/
theorem run_transaction_fatal_stops (op : Nat → OpResult) (m : Int) (k : Nat)
    (s : String) (hk : 1 ≤ k) (hkm : (k : Int) ≤ m)
    (hop : ∀ r, 1 ≤ r → r < k → op r = .raise .serialization)
    (hfat : op k = .raise (.fatal s)) :
    (run_transaction op m).1 = .error (.fatal s) ∧
    countEv isInvoke (run_transaction op m).2 = k ∧
    countEv isSleep (run_transaction op m).2 = k - 1 ∧
    countEv isRollback (run_transaction op m).2 = k - 1 := by
  have h := run_transaction_prefixStop op m k hk hkm hop
  have hstop : runLoop op m (k :: List.range' (k + 1) (m.toNat - k)) =
      (.error (.fatal s), [.invoke k]) := by
    simp [runLoop, hfat]
  rw [hstop] at h
  refine ⟨by rw [h], ?_, ?_, ?_⟩ <;>
    (rw [h];
      simp [countEv, countEv_append, isInvoke, isSleep, isRollback, closerOf,
        countEv_invoke_conflictBlocks, countEv_sleep_conflictBlocks,
        countEv_rollback_conflictBlocks];
      try omega)

/-- C2 witness: the end-to-end spec scenario `maxRetries = 5`, fatal
error on attempt 1: one invocation, zero sleeps, zero rollbacks, the
exact error propagated. -/
theorem run_transaction_fatal_stops_witness :
    (run_transaction (fun _ => .raise (.fatal "constraint violation")) 5).1 =
      .error (.fatal "constraint violation") ∧
    countEv isInvoke
      (run_transaction (fun _ => .raise (.fatal "constraint violation")) 5).2 = 1 ∧
    countEv isSleep
      (run_transaction (fun _ => .raise (.fatal "constraint violation")) 5).2 = 0 ∧
    countEv isRollback
      (run_transaction (fun _ => .raise (.fatal "constraint violation")) 5).2 = 0 :=
  run_transaction_fatal_stops (fun _ => .raise (.fatal "constraint violation"))
    5 1 "constraint violation" (by decide) (by decide)
    (fun r h1 h2 => by omega) rfl

/-- C5: a serialization error never escapes `run_transaction`: for
every unit-of-work behaviour and every `maxRetries`, the outcome is
success, a fatal error raised by some attempt (its payload preserved),
or the retries-exhausted error — never `.error .serialization`. -/
theorem run_transaction_no_conflict_escape (op : Nat → OpResult) (m : Int) :
    (run_transaction op m).1 ≠ .error .serialization ∧
    ((run_transaction op m).1 = .success ∨
      (∃ r s, r ∈ attemptRange m ∧ op r = .raise (.fatal s) ∧
        (run_transaction op m).1 = .error (.fatal s)) ∨
      (run_transaction op m).1 = .retriesExhausted (exhaustedMessage m)) := by
  have he : (run_transaction op m).1 = (runLoop op m (attemptRange m)).1 := by
    simp [run_transaction]
  have h := runLoop_outcome op m (attemptRange m)
  constructor
  · rw [he]
    rcases h with h1 | ⟨r, s, _, _, hout⟩ | h1
    · rw [h1]; simp
    · rw [hout]; simp
    · rw [h1]; simp
  · rw [he]; exact h

/-- C7: trace structure of every run: the runner opens the scope, then
emits, for each attempt in the maximal serialization-failure prefix,
exactly the block invoke-rollback-sleep — so every retryable failure
is followed by exactly one explicit rollback, placed before the
backoff sleep and before the next invocation — then at most one
further invocation (the stopping attempt), then the scope closer. -/
theorem run_transaction_rollback_before_sleep (op : Nat → OpResult) (m : Int) :
    (run_transaction op m).2 =
      .beginScope ::
        (conflictBlocks (conflictAttempts op (attemptRange m)) ++
          stopInvoke (afterConflicts op (attemptRange m))) ++
        [closerOf (run_transaction op m).1] := by
  have ht := runLoop_trace op m (attemptRange m)
  simp [run_transaction, ht]

/-- The attempts invoked during a run are the consecutive attempt
numbers starting at 1: each attempt is executed at most once and in
order, never resumed or repeated. -/
lemma invokes_run_eq (op : Nat → OpResult) (m : Int) :
    invokesOf (run_transaction op m).2 =
      List.range' 1 (invokesOf (run_transaction op m).2).length := by
  have ht := runLoop_trace op m (attemptRange m)
  have htrace : (run_transaction op m).2 =
      .beginScope ::
        ((conflictBlocks (conflictAttempts op (attemptRange m)) ++
          stopInvoke (afterConflicts op (attemptRange m))) ++
          [closerOf (runLoop op m (attemptRange m)).1]) := by
    simp [run_transaction, ht]
  rw [htrace]
  simp only [invokesOf, invokesOf_append, invokesOf_conflictBlocks, invokesOf_closerOf,
    conflictAttempts, afterConflicts, attemptRange, List.append_nil]
  have htw := takeWhile_range'_eq
    (fun r => decide (op r = OpResult.raise Err.serialization)) m.toNat 1
  have hdw := dropWhile_range'_eq
    (fun r => decide (op r = OpResult.raise Err.serialization)) m.toNat 1
  rcases hc : m.toNat -
      ((List.range' 1 m.toNat).takeWhile
        (fun r => decide (op r = OpResult.raise Err.serialization))).length with _ | t
  · rw [hc] at hdw
    rw [hdw]
    simp only [List.range'_zero, stopInvoke, invokesOf, List.append_nil]
    exact htw
  · rw [hc] at hdw
    rw [hdw, List.range'_succ]
    simp only [stopInvoke, invokesOf]
    rw [htw]
    simp only [List.length_append, List.length_range', List.length_cons,
      List.length_nil]
    exact (List.range'_1_concat 1 _).symm

/-- C8: in every run exactly one transaction scope is opened, as the
very first event, and exactly one scope close (commit or abort)
happens; the unit of work is invoked on the consecutive attempt
numbers 1, 2, ... — each attempt runs in full from its start, none is
resumed or repeated. -/
theorem run_transaction_single_scope (op : Nat → OpResult) (m : Int) :
    countEv isBegin (run_transaction op m).2 = 1 ∧
    countEv isClose (run_transaction op m).2 = 1 ∧
    (run_transaction op m).2.head? = some .beginScope ∧
    invokesOf (run_transaction op m).2 =
      List.range' 1 (countEv isInvoke (run_transaction op m).2) := by
  have ht := runLoop_trace op m (attemptRange m)
  have htrace : (run_transaction op m).2 =
      .beginScope ::
        ((conflictBlocks (conflictAttempts op (attemptRange m)) ++
          stopInvoke (afterConflicts op (attemptRange m))) ++
          [closerOf (runLoop op m (attemptRange m)).1]) := by
    simp [run_transaction, ht]
  refine ⟨?_, ?_, ?_, ?_⟩
  · rw [htrace]
    cases houtc : (runLoop op m (attemptRange m)).1 <;>
      simp [houtc, closerOf, countEv, countEv_append, isBegin,
        countEv_begin_conflictBlocks, countEv_begin_stopInvoke]
  · rw [htrace]
    cases houtc : (runLoop op m (attemptRange m)).1 <;>
      simp [houtc, closerOf, countEv, countEv_append, isClose,
        countEv_close_conflictBlocks, countEv_close_stopInvoke]
  · rw [htrace]; rfl
  · rw [← length_invokesOf]
    exact invokes_run_eq op m

/-- C4: the backoff delay of line 88 for retry number `r`, with jitter
`j = random.random() ∈ [0, 1)`, lies in `[(2^r)·0.1·0.5, (2^r)·0.1·1.5)`
(base 0.1), and the expected delay (the delay at the jitter mean 1/2,
the delay being affine in the jitter) is non-decreasing in `r`. -/
theorem sleep_seconds_bounds (r : Nat) (j : ℚ) (h0 : 0 ≤ j) (h1 : j < 1) :
    2 ^ r * (1 / 10) * (1 / 2) ≤ sleep_seconds r j ∧
    sleep_seconds r j < 2 ^ r * (1 / 10) * (3 / 2) ∧
    expectedSleep r ≤ expectedSleep (r + 1) := by
  have hp : (0 : ℚ) < 2 ^ r * (1 / 10) := by positivity
  refine ⟨?_, ?_, ?_⟩
  · show 2 ^ r * (1 / 10) * (1 / 2) ≤ 2 ^ r * (1 / 10) * (j + 1 / 2)
    exact mul_le_mul_of_nonneg_left (by linarith) hp.le
  · show 2 ^ r * (1 / 10) * (j + 1 / 2) < 2 ^ r * (1 / 10) * (3 / 2)
    exact mul_lt_mul_of_pos_left (by linarith) hp
  · show sleep_seconds r (1 / 2) ≤ sleep_seconds (r + 1) (1 / 2)
    simp only [sleep_seconds]
    have h2 : (2 : ℚ) ^ (r + 1) = 2 * 2 ^ r := by ring
    rw [h2]
    nlinarith [hp]

/-- C4 witness: the bounds and the expectation monotonicity evaluated
at retry number 1 with jitter 0. -/
theorem sleep_seconds_bounds_witness :
    (0 : ℚ) ≤ 0 ∧ (0 : ℚ) < 1 ∧
    (2 ^ 1 * (1 / 10) * (1 / 2) ≤ sleep_seconds 1 0 ∧
      sleep_seconds 1 0 < 2 ^ 1 * (1 / 10) * (3 / 2) ∧
      expectedSleep 1 ≤ expectedSleep (1 + 1)) :=
  ⟨le_refl 0, by norm_num, sleep_seconds_bounds 1 0 (le_refl 0) (by norm_num)⟩

/-- C10: if the fetched balance of the source account is strictly
below the requested amount, `transfer_funds` raises the
insufficient-funds error before issuing either UPDATE: zero UPDATE
statements are executed and the account table is returned unchanged. -/
theorem transfer_funds_insufficient (db : List (Nat × Int)) (frm tto : Nat)
    (amount bal : Int) (hfetch : fetchBalance db frm = some bal)
    (hlt : bal < amount) :
    transfer_funds db frm tto amount = some (.insufficientFunds, db, 0) := by
  simp [transfer_funds, hfetch, hlt]

/-- C10 witness: an account table where the source holds 50 and a
transfer of 100 is requested: the error is raised, no UPDATE runs, and
the table is unchanged. -/
theorem transfer_funds_insufficient_witness :
    fetchBalance [(1, 50), (2, 250)] 1 = some 50 ∧ (50 : Int) < 100 ∧
    transfer_funds [(1, 50), (2, 250)] 1 2 100 =
      some (.insufficientFunds, [(1, 50), (2, 250)], 0) :=
  ⟨rfl, by decide,
    transfer_funds_insufficient [(1, 50), (2, 250)] 1 2 100 50 rfl (by decide)⟩

end AsyncpgExample


